import Mathlib

/-!
# Verification of the quickpoeter-web configuration / theme / caching core

Shallow embedding of `src/app/mod.rs` and `src/app/highlighter.rs`:
the `Theme` variant type and its `mean_theme` resolution, the
`RemovePartsOfSpeech` flag set and its `get_list` mapping, the
`QuickpoeterApp` state with its serde persistence semantics, the
`GeneralSettings` scoring configuration, and the two-domain LRU
highlight cache.

External collaborators (the quickpoeter ranking engine, the semantic
model constructor `MeanTheme::from_str`, the eframe storage layer) are
modelled as explicit parameters or, where the repository only declares
them, from the specification, as noted on each definition.
-/

set_option autoImplicit false

namespace Quickpoeter

/-- Opaque handle produced by the external semantic-model constructor
`MeanTheme::from_str`.  The constructor itself is external to this
repository, so the handle carries no structure beyond the word list it
was built from. -/
structure MeanTheme where
  words : List String
  deriving DecidableEq, Repr

/-- Embedding of the Rust `Theme` enum from `src/app/mod.rs`:
`No`, `Preset(String)`, `Custom`. -/
inductive Theme where
  | No : Theme
  | Preset : String → Theme
  | Custom : Theme
  deriving DecidableEq, Repr

/-- Worker for `splitWhitespace`: walks the character list, accumulating
the current token in reverse, emitting it whenever a whitespace
character or the end of input is reached and the token is nonempty. -/
def splitWhitespaceAux : List Char → List Char → List String
  | [], [] => []
  | [], cur => [String.mk cur.reverse]
  | c :: cs, cur =>
    if c.isWhitespace then
      match cur with
      | [] => splitWhitespaceAux cs []
      | _ => String.mk cur.reverse :: splitWhitespaceAux cs []
    else splitWhitespaceAux cs (c :: cur)

/-- Rust `str::split_whitespace`: the maximal runs of non-whitespace
characters, in order; empty tokens never occur. -/
def splitWhitespace (s : String) : List String :=
  splitWhitespaceAux s.toList []

/-- Association-list lookup, modelling indexing into the
`MeanStrThemes::str_themes` hash map. -/
def lookupTable (table : List (String × List String)) (name : String) :
    Option (List String) :=
  (table.find? (fun p => p.fst = name)).map Prod.snd

/-- Embedding of `Theme::mean_theme` from `src/app/mod.rs` lines
124-141.  The external constructor `MeanTheme::from_str` is passed in as
`fromStr` (failure carries the unresolved words), the theme table as
`table`.  The Rust code indexes the table with `[s]`, which panics when
the key is absent; the panic is modelled as `none`, every normal return
as `some`. -/
def meanTheme (fromStr : List String → Except (List String) MeanTheme)
    (table : List (String × List String)) (theme : Theme)
    (custom_theme_text : String) :
    Option (Except (List String) (Option MeanTheme)) :=
  match theme with
  | Theme.No => some (Except.ok none)
  | Theme.Preset s =>
    match lookupTable table s with
    | none => none
    | some ws => some ((fromStr ws).map some)
  | Theme.Custom =>
    some ((fromStr (splitWhitespace custom_theme_text)).map some)

/-! ## Theme-resolution error reporting (`QuickpoeterApp::update`) -/

/-- Rust `Debug` formatting of a `Vec<String>`: the words, each in double
quotes, comma-separated inside square brackets.  This is the `{err:?}`
interpolation in the error branch of `QuickpoeterApp::update`. -/
def rustDebugVec (l : List String) : String :=
  "[" ++ String.intercalate ", " (l.map (fun s => "\"" ++ s ++ "\"")) ++ "]"

/-- Embedding of the `map_err` closure in `QuickpoeterApp::update` lines
238-241: the unresolved-word list is turned into user-facing error text,
with a distinct message for the empty list. -/
def themeErrorMessage (err : List String) : String :=
  match err.length with
  | 0 => "Пустая тема"
  | _ + 1 => "Неизвестные слова: " ++ rustDebugVec err

/-! ## Part-of-speech filter (`RemovePartsOfSpeech`) -/

/-- Embedding of the `RemovePartsOfSpeech` struct from `src/app/mod.rs`:
sixteen independent boolean exclusion flags.  The Rust derive of
`Default` makes every flag false. -/
structure RemovePartsOfSpeech where
  noun : Bool
  adj : Bool
  pronoun : Bool
  pronoun_adj : Bool
  verb : Bool
  adv : Bool
  num : Bool
  num_adj : Bool
  linking : Bool
  citoslovce : Bool
  pred : Bool
  prep : Bool
  conj : Bool
  compare : Bool
  part : Bool
  misc : Bool
  deriving DecidableEq, Repr

/-- `Default::default()` for `RemovePartsOfSpeech`: all flags false. -/
def RemovePartsOfSpeech.default : RemovePartsOfSpeech :=
  ⟨false, false, false, false, false, false, false, false,
   false, false, false, false, false, false, false, false⟩

/-- The conditional-push sequence of `RemovePartsOfSpeech::get_list`: for
each (flag, code) pair in order, the code is appended when the flag is
set.  This is the expansion of the `add!` macro in the Rust source. -/
def optList : List (Bool × String) → List String
  | [] => []
  | p :: ps => (if p.1 then [p.2] else []) ++ optList ps

/-- The fixed canonical code list, in the order the Rust source pushes
them. -/
def codes : List String :=
  ["с", "п", "мс", "мс-п", "г", "н", "числ", "числ-п",
   "вводн", "межд", "предик", "предл", "союз", "сравн", "част", "?"]

/-- The sixteen flags of a `RemovePartsOfSpeech`, in the order the Rust
source tests them. -/
def flagList (r : RemovePartsOfSpeech) : List Bool :=
  [r.noun, r.adj, r.pronoun, r.pronoun_adj, r.verb, r.adv, r.num,
   r.num_adj, r.linking, r.citoslovce, r.pred, r.prep, r.conj,
   r.compare, r.part, r.misc]

/-- Embedding of `RemovePartsOfSpeech::get_list` from `src/app/mod.rs`
lines 71-99: the sixteen `add!(flag, code)` pushes in source order. -/
def RemovePartsOfSpeech.get_list (r : RemovePartsOfSpeech) : List String :=
  optList [(r.noun, "с"), (r.adj, "п"), (r.pronoun, "мс"),
    (r.pronoun_adj, "мс-п"), (r.verb, "г"), (r.adv, "н"),
    (r.num, "числ"), (r.num_adj, "числ-п"), (r.linking, "вводн"),
    (r.citoslovce, "межд"), (r.pred, "предик"), (r.prep, "предл"),
    (r.conj, "союз"), (r.compare, "сравн"), (r.part, "част"),
    (r.misc, "?")]

/-- The code pushed for flag position `i`, following the canonical
order of `codes`. -/
def codeAt : Fin 16 → String
  | ⟨0, _⟩ => "с"
  | ⟨1, _⟩ => "п"
  | ⟨2, _⟩ => "мс"
  | ⟨3, _⟩ => "мс-п"
  | ⟨4, _⟩ => "г"
  | ⟨5, _⟩ => "н"
  | ⟨6, _⟩ => "числ"
  | ⟨7, _⟩ => "числ-п"
  | ⟨8, _⟩ => "вводн"
  | ⟨9, _⟩ => "межд"
  | ⟨10, _⟩ => "предик"
  | ⟨11, _⟩ => "предл"
  | ⟨12, _⟩ => "союз"
  | ⟨13, _⟩ => "сравн"
  | ⟨14, _⟩ => "част"
  | ⟨_, _⟩ => "?"

/-- The flag at position `i`, following the order of `flagList`. -/
def flagAt : Fin 16 → RemovePartsOfSpeech → Bool
  | ⟨0, _⟩, r => r.noun
  | ⟨1, _⟩, r => r.adj
  | ⟨2, _⟩, r => r.pronoun
  | ⟨3, _⟩, r => r.pronoun_adj
  | ⟨4, _⟩, r => r.verb
  | ⟨5, _⟩, r => r.adv
  | ⟨6, _⟩, r => r.num
  | ⟨7, _⟩, r => r.num_adj
  | ⟨8, _⟩, r => r.linking
  | ⟨9, _⟩, r => r.citoslovce
  | ⟨10, _⟩, r => r.pred
  | ⟨11, _⟩, r => r.prep
  | ⟨12, _⟩, r => r.conj
  | ⟨13, _⟩, r => r.compare
  | ⟨14, _⟩, r => r.part
  | ⟨_, _⟩, r => r.misc

/-- Toggling the single flag at position `i`. -/
def toggleFlag : Fin 16 → RemovePartsOfSpeech → RemovePartsOfSpeech
  | ⟨0, _⟩, r => { r with noun := !r.noun }
  | ⟨1, _⟩, r => { r with adj := !r.adj }
  | ⟨2, _⟩, r => { r with pronoun := !r.pronoun }
  | ⟨3, _⟩, r => { r with pronoun_adj := !r.pronoun_adj }
  | ⟨4, _⟩, r => { r with verb := !r.verb }
  | ⟨5, _⟩, r => { r with adv := !r.adv }
  | ⟨6, _⟩, r => { r with num := !r.num }
  | ⟨7, _⟩, r => { r with num_adj := !r.num_adj }
  | ⟨8, _⟩, r => { r with linking := !r.linking }
  | ⟨9, _⟩, r => { r with citoslovce := !r.citoslovce }
  | ⟨10, _⟩, r => { r with pred := !r.pred }
  | ⟨11, _⟩, r => { r with prep := !r.prep }
  | ⟨12, _⟩, r => { r with conj := !r.conj }
  | ⟨13, _⟩, r => { r with compare := !r.compare }
  | ⟨14, _⟩, r => { r with part := !r.part }
  | ⟨15, _⟩, r => { r with misc := !r.misc }
  | ⟨_, _⟩, r => r

/-- An example flag assignment used by witnesses: only the verb flag
set. -/
def exampleRps : RemovePartsOfSpeech :=
  { RemovePartsOfSpeech.default with verb := true }

/-! ## Scoring configuration (`GeneralSettings`)

The struct itself lives in the external quickpoeter crate; its shape is
reconstructed from the field accesses in `src/app/mod.rs` (the settings
window binds a slider to every field).  Numeric parameters are embedded
as rationals. -/

/-- Popularity axis: weight and exponent. -/
structure PopularitySettings where
  weight : Rat
  pow : Rat
  deriving DecidableEq, Repr

/-- Meaning/theme axis: weight, exponent, and the single-word exponent
and multiplier. -/
structure MeaningSettings where
  weight : Rat
  pow : Rat
  single_pow : Rat
  single_weight : Rat
  deriving DecidableEq, Repr

/-- Stress-pattern axis. -/
structure StressSettings where
  weight : Rat
  k_strict_stress : Rat
  k_not_strict_stress : Rat
  bad_rythm : Rat
  shift_syll_ending : Rat
  pow_syll_ending : Rat
  asympt : Rat
  asympt_shift : Rat
  indexation : Bool
  deriving DecidableEq, Repr

/-- Consonant-structure axis. -/
structure ConsonantStructureSettings where
  weight : Rat
  pow : Rat
  shift_syll_ending : Rat
  pow_syll_ending : Rat
  asympt : Rat
  asympt_shift : Rat
  deriving DecidableEq, Repr

/-- Alliteration axis. -/
structure AlliterationSettings where
  weight : Rat
  shift_coord : Rat
  pow_coord_delta : Rat
  shift_syll_ending : Rat
  pow_syll_ending : Rat
  permutations : Rat
  asympt : Rat
  asympt_shift : Rat
  deriving DecidableEq, Repr

/-- Unsymmetrical-length axis: optimal length and the shorter/longer
penalty weight-exponent pairs. -/
structure UnsymmetricalSettings where
  optimal_length : Rat
  less_w : Rat
  less_pow : Rat
  more_w : Rat
  more_pow : Rat
  deriving DecidableEq, Repr

/-- Miscellaneous penalties. -/
structure MiscSettings where
  length_diff_fine : Rat
  same_cons_end : Rat
  deriving DecidableEq, Repr

/-- Same-part-of-speech penalties. -/
structure SameSpeechPartSettings where
  verb : Rat
  adj : Rat
  noun : Rat
  adv : Rat
  deriving DecidableEq, Repr

/-- The whole scoring configuration, as accessed by `src/app/mod.rs`. -/
structure GeneralSettings where
  popularity : PopularitySettings
  meaning : MeaningSettings
  stresses : StressSettings
  consonant_structure : ConsonantStructureSettings
  alliteration : AlliterationSettings
  unsymmetrical : UnsymmetricalSettings
  misc : MiscSettings
  same_speech_part : SameSpeechPartSettings
  deriving DecidableEq, Repr

/-- Modelled from the spec: the baseline `GeneralSettings::default()`
lives in the external quickpoeter crate and is not part of this
repository; the claims only rely on it being one fixed value, so a fixed
representative (every numeric parameter 1, indexation on) stands in for
it. -/
def GeneralSettings.default : GeneralSettings :=
  { popularity := ⟨1, 1⟩
    meaning := ⟨1, 1, 1, 1⟩
    stresses := ⟨1, 1, 1, 1, 1, 1, 1, 1, true⟩
    consonant_structure := ⟨1, 1, 1, 1, 1, 1⟩
    alliteration := ⟨1, 1, 1, 1, 1, 1, 1, 1⟩
    unsymmetrical := ⟨1, 1, 1, 1, 1⟩
    misc := ⟨1, 1⟩
    same_speech_part := ⟨1, 1, 1, 1⟩ }

/-! ## Application state and persistence (`QuickpoeterApp`) -/

/-- Embedding of the `QuickpoeterApp` struct from `src/app/mod.rs` lines
13-32.  The first five fields carry `#[serde(skip)]` in the source; the
struct carries `#[serde(default)]`. -/
structure QuickpoeterApp where
  rhyme_word : String
  rhyme_output : Except String (List String)
  show_settings : Bool
  show_theme : Bool
  general_settings : GeneralSettings
  custom_theme_text : String
  theme : Theme
  rps : RemovePartsOfSpeech
  show_rhymes : Nat
  main_text : String

/-- `Default for QuickpoeterApp` from `src/app/mod.rs` lines 144-160. -/
def QuickpoeterApp.default : QuickpoeterApp :=
  { main_text := ""
    rhyme_word := ""
    general_settings := GeneralSettings.default
    show_theme := false
    show_settings := false
    rhyme_output := Except.ok []
    rps := RemovePartsOfSpeech.default
    custom_theme_text := ""
    show_rhymes := 50
    theme := Theme.No }

/-- The stored form of the application state: one optional slot per
field that is serialized (every field of `QuickpoeterApp` without
`#[serde(skip)]`).  A `none` slot models the field being absent from the
stored payload; fields the deserializer does not recognize are ignored
by serde and need no representation. -/
structure PersistedPayload where
  custom_theme_text : Option String
  theme : Option Theme
  rps : Option RemovePartsOfSpeech
  show_rhymes : Option Nat
  main_text : Option String

/-- Serialization as derived in `src/app/mod.rs`: exactly the fields not
marked `#[serde(skip)]` are written. -/
def QuickpoeterApp.serialize (app : QuickpoeterApp) : PersistedPayload :=
  { custom_theme_text := some app.custom_theme_text
    theme := some app.theme
    rps := some app.rps
    show_rhymes := some app.show_rhymes
    main_text := some app.main_text }

/-- Deserialization as derived in `src/app/mod.rs`: with
`#[serde(default)]` a missing field takes its value from
`Default::default()` of the struct, and a `#[serde(skip)]` field is
never read from the payload, so it always takes the default value. -/
def QuickpoeterApp.deserialize (p : PersistedPayload) : QuickpoeterApp :=
  { rhyme_word := QuickpoeterApp.default.rhyme_word
    rhyme_output := QuickpoeterApp.default.rhyme_output
    show_settings := QuickpoeterApp.default.show_settings
    show_theme := QuickpoeterApp.default.show_theme
    general_settings := QuickpoeterApp.default.general_settings
    custom_theme_text :=
      p.custom_theme_text.getD QuickpoeterApp.default.custom_theme_text
    theme := p.theme.getD QuickpoeterApp.default.theme
    rps := p.rps.getD QuickpoeterApp.default.rps
    show_rhymes := p.show_rhymes.getD QuickpoeterApp.default.show_rhymes
    main_text := p.main_text.getD QuickpoeterApp.default.main_text }

/-- Embedding of `QuickpoeterApp::new` from `src/app/mod.rs` lines
169-180.  The outer `Option` models whether `cc.storage` is present,
the inner one the result of `eframe::get_value` (which is `None` when
stored state exists but cannot be deserialized at all);
`.unwrap_or_default()` is `Option.getD` at the default state. -/
def QuickpoeterApp.new (storage : Option (Option QuickpoeterApp)) :
    QuickpoeterApp :=
  match storage with
  | some stored => stored.getD QuickpoeterApp.default
  | none => QuickpoeterApp.default

/-- Embedding of the reset button handler in
`QuickpoeterApp::show_settings_window` lines 304-306:
`self.general_settings = GeneralSettings::default()`. -/
def QuickpoeterApp.resetSettings (app : QuickpoeterApp) : QuickpoeterApp :=
  { app with general_settings := GeneralSettings.default }

/-! ## Composite score and ranked output

Modelled from the spec: the ranking engine (`find` in the external
quickpoeter crate) is out of scope of this repository and is specified
as a monotonic additive contribution model — every axis contributes its
weight times an axis-specific shape function of the axis parameters and
the candidate, and candidates are ranked by the composite score. -/

/-- The axis shape functions of the external engine, one per weighted
contribution, each consuming exactly the shape parameters of its axis
and the candidate word. -/
structure AxisFns where
  popScore : Rat → String → Rat
  meanScore : Rat → Rat → Rat → String → Rat
  stressScore : Rat → Rat → Rat → Rat → Rat → Rat → Rat → Bool → String → Rat
  consScore : Rat → Rat → Rat → Rat → Rat → String → Rat
  allitScore : Rat → Rat → Rat → Rat → Rat → Rat → Rat → String → Rat
  lessScore : Rat → Rat → String → Rat
  moreScore : Rat → Rat → String → Rat
  lenDiffScore : String → Rat
  sameConsEndScore : String → Rat
  verbScore : String → Rat
  adjScore : String → Rat
  nounScore : String → Rat
  advScore : String → Rat

/-- Modelled from the spec: the composite score of a candidate is the
sum over all axes of the axis weight times the axis shape function. -/
def compositeScore (F : AxisFns) (g : GeneralSettings) (w : String) : Rat :=
  g.popularity.weight * F.popScore g.popularity.pow w
    + g.meaning.weight *
        F.meanScore g.meaning.pow g.meaning.single_pow g.meaning.single_weight w
    + g.stresses.weight *
        F.stressScore g.stresses.k_strict_stress g.stresses.k_not_strict_stress
          g.stresses.bad_rythm g.stresses.shift_syll_ending
          g.stresses.pow_syll_ending g.stresses.asympt g.stresses.asympt_shift
          g.stresses.indexation w
    + g.consonant_structure.weight *
        F.consScore g.consonant_structure.pow
          g.consonant_structure.shift_syll_ending
          g.consonant_structure.pow_syll_ending g.consonant_structure.asympt
          g.consonant_structure.asympt_shift w
    + g.alliteration.weight *
        F.allitScore g.alliteration.shift_coord g.alliteration.pow_coord_delta
          g.alliteration.shift_syll_ending g.alliteration.pow_syll_ending
          g.alliteration.permutations g.alliteration.asympt
          g.alliteration.asympt_shift w
    + g.unsymmetrical.less_w *
        F.lessScore g.unsymmetrical.optimal_length g.unsymmetrical.less_pow w
    + g.unsymmetrical.more_w *
        F.moreScore g.unsymmetrical.optimal_length g.unsymmetrical.more_pow w
    + g.misc.length_diff_fine * F.lenDiffScore w
    + g.misc.same_cons_end * F.sameConsEndScore w
    + g.same_speech_part.verb * F.verbScore w
    + g.same_speech_part.adj * F.adjScore w
    + g.same_speech_part.noun * F.nounScore w
    + g.same_speech_part.adv * F.advScore w

/-- Stable insertion of a candidate into a list already ranked by
descending score. -/
def insertRanked (score : String → Rat) (w : String) :
    List String → List String
  | [] => [w]
  | x :: xs =>
    if score x < score w then w :: x :: xs else x :: insertRanked score w xs

/-- Modelled from the spec: candidates ranked by descending composite
score (stable insertion sort). -/
def rankBy (score : String → Rat) : List String → List String
  | [] => []
  | x :: xs => insertRanked score x (rankBy score xs)

/-- Modelled from the spec: the engine returns the candidates ranked by
the composite score, truncated to the requested result count. -/
def rankedOutput (F : AxisFns) (g : GeneralSettings)
    (candidates : List String) (show_rhymes : Nat) : List String :=
  (rankBy (compositeScore F g) candidates).take show_rhymes

/-- Two configurations agree up to the shape parameters of
zero-weighted axes: every weight coincides, and any axis whose weight is
nonzero coincides entirely. -/
def zeroWeightAgrees (g g2 : GeneralSettings) : Prop :=
  g.popularity.weight = g2.popularity.weight ∧
  (g.popularity.weight = 0 ∨ g.popularity = g2.popularity) ∧
  g.meaning.weight = g2.meaning.weight ∧
  (g.meaning.weight = 0 ∨ g.meaning = g2.meaning) ∧
  g.stresses.weight = g2.stresses.weight ∧
  (g.stresses.weight = 0 ∨ g.stresses = g2.stresses) ∧
  g.consonant_structure.weight = g2.consonant_structure.weight ∧
  (g.consonant_structure.weight = 0 ∨
    g.consonant_structure = g2.consonant_structure) ∧
  g.alliteration.weight = g2.alliteration.weight ∧
  (g.alliteration.weight = 0 ∨ g.alliteration = g2.alliteration) ∧
  g.unsymmetrical.less_w = g2.unsymmetrical.less_w ∧
  g.unsymmetrical.more_w = g2.unsymmetrical.more_w ∧
  ((g.unsymmetrical.less_w = 0 ∧ g.unsymmetrical.more_w = 0) ∨
    g.unsymmetrical = g2.unsymmetrical) ∧
  g.misc = g2.misc ∧
  g.same_speech_part = g2.same_speech_part

/-! ## Highlight cache (`src/app/highlighter.rs`)

The repository declares `Highlighter` (two `CLruCache` fields and a
mode) but contains no method bodies, so the operations are modelled from
the spec. -/

/-- A rendered styled-text value (egui `RichText` is external; only its
identity matters here). -/
structure RichText where
  text : String
  deriving DecidableEq, Repr

/-- Embedding of the `HighlightMode` enum from
`src/app/highlighter.rs`: rhythm highlighting active, or disabled. -/
inductive HighlightMode where
  | Rythm : HighlightMode
  | No : HighlightMode
  deriving DecidableEq, Repr

/-- A bounded LRU cache (the external `CLruCache`), represented as its
entry list in recency order — most recently used first — together with
its capacity. -/
structure LruCache where
  entries : List (String × RichText)
  capacity : Nat
  deriving DecidableEq, Repr

/-- The keys of the cache, most recently used first. -/
def LruCache.keys (c : LruCache) : List String :=
  c.entries.map Prod.fst

/-- Lookup without recency update. -/
def LruCache.lookup (c : LruCache) (k : String) : Option RichText :=
  (c.entries.find? (fun p => p.fst = k)).map Prod.snd

/-- Modelled from the spec: a cache hit marks the entry most recently
used (moves it to the front of the recency order). -/
def LruCache.touch (c : LruCache) (k : String) : LruCache :=
  match c.lookup k with
  | none => c
  | some v => ⟨(k, v) :: c.entries.filter (fun p => p.fst ≠ k), c.capacity⟩

/-- Modelled from the spec: insertion on a cache miss; when the cache is
at capacity the least-recently-used entry (the last in recency order) is
evicted first.  A present key is updated and marked most recently
used. -/
def LruCache.put (c : LruCache) (k : String) (v : RichText) : LruCache :=
  if c.entries.any (fun p => p.fst = k) then
    ⟨(k, v) :: c.entries.filter (fun p => p.fst ≠ k), c.capacity⟩
  else if c.capacity ≤ c.entries.length then
    ⟨(k, v) :: c.entries.dropLast, c.capacity⟩
  else
    ⟨(k, v) :: c.entries, c.capacity⟩

/-- Embedding of the `Highlighter` struct from
`src/app/highlighter.rs`: one cache per highlight domain plus the mode
selector. -/
structure Highlighter where
  cache_highlight : LruCache
  cache_words : LruCache
  mode : HighlightMode
  deriving DecidableEq, Repr

/-- Modelled from the spec: `set_mode` switches which cache domain is
active for subsequent calls; it does not clear either cache. -/
def Highlighter.set_mode (h : Highlighter) (m : HighlightMode) : Highlighter :=
  { h with mode := m }

/-- Modelled from the spec: `get_or_render`.  In `Disabled` (`No`) mode
both caches are bypassed and an unstyled rendering is returned directly;
otherwise the cache bound to the mode is consulted: a hit returns the
cached value and marks it most recently used, a miss renders, inserts
(evicting the least-recently-used entry at capacity) and returns the
rendering. -/
def Highlighter.get_or_render (render renderPlain : String → RichText)
    (h : Highlighter) (t : String) (mode : HighlightMode) :
    RichText × Highlighter :=
  match mode with
  | HighlightMode.No => (renderPlain t, h)
  | HighlightMode.Rythm =>
    match h.cache_highlight.lookup t with
    | some v => (v, { h with cache_highlight := h.cache_highlight.touch t })
    | none =>
      let v := render t
      (v, { h with cache_highlight := h.cache_highlight.put t v })

/-! ## Concrete instances used by the counterexample and the witnesses -/

/-- An application state whose scoring configuration has been moved off
the baseline (popularity weight bumped by one). -/
def appC2 : QuickpoeterApp :=
  { QuickpoeterApp.default with
    general_settings :=
      { GeneralSettings.default with
        popularity :=
          { GeneralSettings.default.popularity with
            weight := GeneralSettings.default.popularity.weight + 1 } } }

/-- Concrete axis shape functions for the C4 witness: popularity depends
on its exponent through the candidate length, everything else is
constant. -/
def axisFnsW : AxisFns :=
  { popScore := fun p w => p * (w.length : Rat)
    meanScore := fun _ _ _ _ => 0
    stressScore := fun _ _ _ _ _ _ _ _ _ => 0
    consScore := fun _ _ _ _ _ _ => 0
    allitScore := fun _ _ _ _ _ _ _ _ => 0
    lessScore := fun _ _ _ => 0
    moreScore := fun _ _ _ => 0
    lenDiffScore := fun _ => 0
    sameConsEndScore := fun _ => 0
    verbScore := fun _ => 0
    adjScore := fun _ => 0
    nounScore := fun _ => 0
    advScore := fun _ => 0 }

/-- Witness configuration: popularity weight 0, exponent 1. -/
def gW : GeneralSettings :=
  { GeneralSettings.default with popularity := ⟨0, 1⟩ }

/-- Witness configuration: popularity weight 0, exponent 2 — same as
`gW` except in the zero-weighted axis's shape parameter. -/
def gW2 : GeneralSettings :=
  { GeneralSettings.default with popularity := ⟨0, 2⟩ }

/-- A concrete two-entry cache at capacity for the C8 witness. -/
def cacheW : LruCache :=
  ⟨[("б", ⟨"б"⟩), ("а", ⟨"а"⟩)], 2⟩

/-- A concrete highlighter for the C8 witness. -/
def highlighterW : Highlighter :=
  ⟨cacheW, cacheW, HighlightMode.Rythm⟩

/-! ## Theorems -/

/-- Every token produced by the worker from a non-whitespace accumulator
is nonempty and contains no whitespace character. -/
theorem splitWhitespaceAux_tokens (cs : List Char) :
    ∀ cur, (∀ c ∈ cur, c.isWhitespace = false) →
      ∀ t ∈ splitWhitespaceAux cs cur,
        t ≠ "" ∧ ∀ c ∈ t.toList, c.isWhitespace = false := by
  induction cs with
  | nil =>
    intro cur hcur t ht
    match cur, ht with
    | c :: cur, ht =>
      simp only [splitWhitespaceAux, List.mem_singleton] at ht
      subst ht
      constructor
      · intro h
        have : (c :: cur).reverse = [] := congrArg String.toList h
        simp at this
      · intro x hx
        have hx2 : x ∈ cur ∨ x = c := by simpa using hx
        rcases hx2 with h | h
        · exact hcur x (List.mem_cons_of_mem _ h)
        · exact h ▸ hcur c (List.mem_cons_self _ _)
  | cons c cs ih =>
    intro cur hcur t ht
    simp only [splitWhitespaceAux] at ht
    by_cases hws : c.isWhitespace
    · rw [if_pos hws] at ht
      match cur, ht with
      | [], ht => exact ih [] (by simp) t ht
      | d :: cur, ht =>
        rcases List.mem_cons.mp ht with h | h
        · subst h
          constructor
          · intro h
            have : (d :: cur).reverse = [] := congrArg String.toList h
            simp at this
          · intro x hx
            have hx2 : x ∈ cur ∨ x = d := by simpa using hx
            rcases hx2 with h | h
            · exact hcur x (List.mem_cons_of_mem _ h)
            · exact h ▸ hcur d (List.mem_cons_self _ _)
        · exact ih [] (by simp) t h
    · rw [if_neg hws] at ht
      refine ih (c :: cur) ?_ t ht
      intro x hx
      rcases List.mem_cons.mp hx with h | h
      · subst h; simpa using hws
      · exact hcur x h

/-- C1: theme resolution follows the case analysis of the spec: for every
custom text, `Theme.No` resolves to `Ok(None)`; `Theme.Preset name`
passes the theme table's word list for `name` to the semantic-model
constructor; `Theme.Custom` passes exactly the whitespace-separated
tokens of the custom text, empty tokens discarded, to the same
constructor. -/
theorem meanTheme_case_analysis
    (fromStr : List String → Except (List String) MeanTheme)
    (table : List (String × List String)) (custom_theme_text : String) :
    meanTheme fromStr table Theme.No custom_theme_text =
      some (Except.ok none) ∧
    (∀ name ws, lookupTable table name = some ws →
      meanTheme fromStr table (Theme.Preset name) custom_theme_text =
        some ((fromStr ws).map some)) ∧
    meanTheme fromStr table Theme.Custom custom_theme_text =
      some ((fromStr (splitWhitespace custom_theme_text)).map some) ∧
    ∀ t ∈ splitWhitespace custom_theme_text,
      t ≠ "" ∧ ∀ c ∈ t.toList, c.isWhitespace = false := by
  refine ⟨rfl, ?_, rfl, ?_⟩
  · intro name ws h
    simp [meanTheme, h]
  · exact splitWhitespaceAux_tokens custom_theme_text.toList [] (by simp)

/-- Witness for C1 at a concrete constructor, table and custom text. -/
theorem meanTheme_case_analysis_witness :
    meanTheme (fun ws => Except.ok ⟨ws⟩) [("море", ["вода", "соль"])]
        Theme.No "ел  мёд" = some (Except.ok none) ∧
    meanTheme (fun ws => Except.ok ⟨ws⟩) [("море", ["вода", "соль"])]
        (Theme.Preset "море") "ел  мёд" =
      some (Except.ok (some ⟨["вода", "соль"]⟩)) ∧
    meanTheme (fun ws => Except.ok ⟨ws⟩) [("море", ["вода", "соль"])]
        Theme.Custom "ел  мёд" =
      some (Except.ok (some ⟨["ел", "мёд"]⟩)) := by
  have h := meanTheme_case_analysis (fun ws => Except.ok ⟨ws⟩)
    [("море", ["вода", "соль"])] "ел  мёд"
  refine ⟨h.1, ?_, ?_⟩
  · rw [h.2.1 "море" ["вода", "соль"] (by decide)]
    rfl
  · rw [h.2.2.1]
    rfl

/-- The witness input for C1 splits into the expected tokens with the
double space discarded. -/
theorem splitWhitespace_example : splitWhitespace "ел  мёд" = ["ел", "мёд"] := by
  decide

/-- C9: under the precondition that the name is a key of the theme table,
resolving `Theme.Preset name` never reaches the panic branch of the
unchecked table lookup: the result is always `some` (a normal return). -/
theorem meanTheme_preset_no_panic
    (fromStr : List String → Except (List String) MeanTheme)
    (table : List (String × List String)) (name : String)
    (custom_theme_text : String)
    (h : (lookupTable table name).isSome) :
    (meanTheme fromStr table (Theme.Preset name) custom_theme_text).isSome := by
  obtain ⟨ws, hws⟩ := Option.isSome_iff_exists.mp h
  simp [meanTheme, hws]

/-- Witness for C9 at a concrete table containing the key. -/
theorem meanTheme_preset_no_panic_witness :
    (lookupTable [("зима", ["снег"])] "зима").isSome = true ∧
    (meanTheme (fun ws => Except.ok ⟨ws⟩) [("зима", ["снег"])]
        (Theme.Preset "зима") "").isSome = true :=
  ⟨by decide,
   meanTheme_preset_no_panic (fun ws => Except.ok ⟨ws⟩)
     [("зима", ["снег"])] "зима" "" (by decide)⟩

/-- C3: an empty unresolved-word list is reported as the distinct
"empty theme" message; a non-empty one as a different message carrying
exactly the rejected words in Debug format; the two conditions are never
conflated. -/
theorem themeErrorMessage_distinguishes (err : List String) :
    themeErrorMessage [] = "Пустая тема" ∧
    (err ≠ [] →
      themeErrorMessage err = "Неизвестные слова: " ++ rustDebugVec err ∧
      themeErrorMessage err ≠ "Пустая тема") := by
  refine ⟨rfl, fun hne => ?_⟩
  obtain ⟨e, rest, rfl⟩ := List.exists_cons_of_ne_nil hne
  refine ⟨rfl, fun h => ?_⟩
  have h2 : "Неизвестные слова: " ++ rustDebugVec (e :: rest) =
      "Пустая тема" := h
  have hlen := congrArg String.length h2
  rw [String.length_append] at hlen
  have e1 : "Неизвестные слова: ".length = 19 := by decide
  have e2 : "Пустая тема".length = 11 := by decide
  rw [e1, e2] at hlen
  omega

/-- Witness for C3 at a concrete one-word failure list. -/
theorem themeErrorMessage_distinguishes_witness :
    themeErrorMessage ["к"] = "Неизвестные слова: " ++ rustDebugVec ["к"] ∧
    themeErrorMessage ["к"] ≠ "Пустая тема" :=
  ⟨(themeErrorMessage_distinguishes ["к"]).2 (by decide) |>.1,
   (themeErrorMessage_distinguishes ["к"]).2 (by decide) |>.2⟩

theorem get_list_eq_optList_zip (r : RemovePartsOfSpeech) :
    r.get_list = optList ((flagList r).zip codes) := rfl

/-- A string is in `optList l` exactly when some pair of `l` carries it
with its flag set. -/
theorem mem_optList {c : String} : ∀ {l : List (Bool × String)},
    c ∈ optList l ↔ ∃ p ∈ l, p.1 = true ∧ p.2 = c := by
  intro l
  induction l with
  | nil => simp [optList]
  | cons p ps ih =>
    cases hp : p.1
    · simp [optList, hp, ih]
    · simp [optList, hp, ih]
      exact or_congr eq_comm Iff.rfl

/-- `optList` over a zip is a sublist of the code list: codes appear in
canonical order, each at most once. -/
theorem optList_zip_sublist : ∀ (bs : List Bool) (cs : List String),
    (optList (bs.zip cs)).Sublist cs := by
  intro bs
  induction bs with
  | nil => intro cs; simp [optList]
  | cons b bs ih =>
    intro cs
    cases cs with
    | nil => simp [optList]
    | cons c cs =>
      cases b
      · simpa [optList] using (ih cs).cons c
      · simpa [optList] using (ih cs).cons₂ c

/-- The length of `optList` over a zip counts the true flags consumed. -/
theorem optList_zip_length : ∀ (bs : List Bool) (cs : List String),
    bs.length ≤ cs.length →
    (optList (bs.zip cs)).length = bs.count true := by
  intro bs
  induction bs with
  | nil => intro cs _; simp [optList]
  | cons b bs ih =>
    intro cs hlen
    cases cs with
    | nil => simp at hlen
    | cons c cs =>
      have hlen2 : bs.length ≤ cs.length := by simpa using hlen
      have ihc := ih cs hlen2
      cases b <;> simp [optList, List.count_cons, List.zip] at ihc ⊢ <;>
        omega

/-- `codeAt` agrees with the canonical code list position by position. -/
theorem codeAt_eq_codes_get (i : Fin 16) :
    codeAt i = codes.get ⟨i.val, i.isLt⟩ := by
  fin_cases i <;> rfl

/-- Presence of the code at position `i` in the output is exactly the
flag at position `i`. -/
theorem mem_get_list_iff_flag (r : RemovePartsOfSpeech) (i : Fin 16) :
    codeAt i ∈ r.get_list ↔ flagAt i r = true := by
  fin_cases i <;>
    simp [RemovePartsOfSpeech.get_list, mem_optList, codeAt, flagAt]

/-- Toggling flag `i` negates the flag read at `i`. -/
theorem flagAt_toggleFlag_self (r : RemovePartsOfSpeech) (i : Fin 16) :
    flagAt i (toggleFlag i r) = !(flagAt i r) := by
  fin_cases i <;> rfl

/-- Toggling flag `i` leaves every other flag unchanged. -/
theorem flagAt_toggleFlag_ne (r : RemovePartsOfSpeech) (i j : Fin 16)
    (h : j ≠ i) : flagAt j (toggleFlag i r) = flagAt j r := by
  fin_cases i <;> fin_cases j <;> first | rfl | simp at h

/-- C5: for every flag assignment, `get_list` emits codes in the fixed
canonical order (it is a sublist of the canonical code list), its length
is the number of true flags, and toggling any single flag flips exactly
that flag's code presence, leaving every other code's presence
unchanged.  Being a pure function of the flags, it is deterministic. -/
theorem get_list_spec (r : RemovePartsOfSpeech) (i : Fin 16) :
    (r.get_list).Sublist codes ∧
    (r.get_list).length = (flagList r).count true ∧
    (codeAt i ∈ (toggleFlag i r).get_list ↔ codeAt i ∉ r.get_list) ∧
    (∀ j : Fin 16, j ≠ i →
      (codeAt j ∈ (toggleFlag i r).get_list ↔ codeAt j ∈ r.get_list)) := by
  refine ⟨?_, ?_, ?_, ?_⟩
  · rw [get_list_eq_optList_zip]
    exact optList_zip_sublist _ _
  · rw [get_list_eq_optList_zip]
    exact optList_zip_length _ _ (by simp [flagList, codes])
  · rw [mem_get_list_iff_flag, mem_get_list_iff_flag,
      flagAt_toggleFlag_self]
    cases flagAt i r <;> simp
  · intro j hj
    rw [mem_get_list_iff_flag, mem_get_list_iff_flag,
      flagAt_toggleFlag_ne r i j hj]

/-- Witness for C5 at the example assignment, toggled at the verb
position, compared at the noun position. -/
theorem get_list_spec_witness :
    (exampleRps.get_list).length = (flagList exampleRps).count true ∧
    (codeAt 4 ∈ (toggleFlag 4 exampleRps).get_list ↔
      codeAt 4 ∉ exampleRps.get_list) ∧
    (codeAt 0 ∈ (toggleFlag 4 exampleRps).get_list ↔
      codeAt 0 ∈ exampleRps.get_list) :=
  ⟨(get_list_spec exampleRps 4).2.1,
   (get_list_spec exampleRps 4).2.2.1,
   (get_list_spec exampleRps 4).2.2.2 0 (by decide)⟩

/-- C2 is refuted on the code: `general_settings` carries
`#[serde(skip)]`, so ScoringConfig values do not survive a
save-then-restore cycle — a non-baseline configuration comes back as the
baseline. -/
theorem roundtrip_drops_scoring_config :
    (QuickpoeterApp.deserialize appC2.serialize).general_settings ≠
      appC2.general_settings := by
  intro h
  have hL : (QuickpoeterApp.deserialize appC2.serialize).general_settings =
      GeneralSettings.default := rfl
  rw [hL] at h
  have hw : GeneralSettings.default.popularity.weight =
      GeneralSettings.default.popularity.weight + 1 :=
    congrArg (fun gs => gs.popularity.weight) h
  exact (lt_add_one GeneralSettings.default.popularity.weight).ne hw

/-- C2 (amended): the serialized fields — custom theme text, selected
Theme, part-of-speech flags, result-count limit, main text — survive a
save-then-restore cycle field-for-field; the `#[serde(skip)]`
scoring configuration always restores to the baseline; and a payload
with every field missing deserializes to the full default state rather
than failing. -/
theorem persistence_roundtrip (app : QuickpoeterApp) :
    (QuickpoeterApp.deserialize app.serialize).custom_theme_text =
      app.custom_theme_text ∧
    (QuickpoeterApp.deserialize app.serialize).theme = app.theme ∧
    (QuickpoeterApp.deserialize app.serialize).rps = app.rps ∧
    (QuickpoeterApp.deserialize app.serialize).show_rhymes =
      app.show_rhymes ∧
    (QuickpoeterApp.deserialize app.serialize).main_text = app.main_text ∧
    (QuickpoeterApp.deserialize app.serialize).general_settings =
      GeneralSettings.default ∧
    QuickpoeterApp.deserialize ⟨none, none, none, none, none⟩ =
      QuickpoeterApp.default :=
  ⟨rfl, rfl, rfl, rfl, rfl, rfl, rfl⟩

/-- C6: after `reset()` every part of the scoring configuration reads as
its fixed baseline value, whatever the prior mutation history; the reset
replaces the whole configuration at once, so any two histories reset to
the same configuration. -/
theorem reset_restores_baseline (app app2 : QuickpoeterApp) :
    (app.resetSettings).general_settings = GeneralSettings.default ∧
    (app.resetSettings).general_settings.popularity =
      GeneralSettings.default.popularity ∧
    (app.resetSettings).general_settings.meaning =
      GeneralSettings.default.meaning ∧
    (app.resetSettings).general_settings.stresses =
      GeneralSettings.default.stresses ∧
    (app.resetSettings).general_settings.consonant_structure =
      GeneralSettings.default.consonant_structure ∧
    (app.resetSettings).general_settings.alliteration =
      GeneralSettings.default.alliteration ∧
    (app.resetSettings).general_settings.unsymmetrical =
      GeneralSettings.default.unsymmetrical ∧
    (app.resetSettings).general_settings.misc =
      GeneralSettings.default.misc ∧
    (app.resetSettings).general_settings.same_speech_part =
      GeneralSettings.default.same_speech_part ∧
    (app.resetSettings).general_settings =
      (app2.resetSettings).general_settings :=
  ⟨rfl, rfl, rfl, rfl, rfl, rfl, rfl, rfl, rfl, rfl⟩

/-- C10: loading persisted state is total.  A present but entirely
undeserializable payload falls back to the complete default state, a
deserializable payload is used as is, and absent storage also yields the
default — no error is ever propagated. -/
theorem new_total_fallback :
    QuickpoeterApp.new (some none) = QuickpoeterApp.default ∧
    QuickpoeterApp.new none = QuickpoeterApp.default ∧
    ∀ app : QuickpoeterApp, QuickpoeterApp.new (some (some app)) = app :=
  ⟨rfl, rfl, fun _ => rfl⟩

/-- A weight common to two terms multiplies equal factors — or is zero,
in which case both terms vanish. -/
theorem mul_term_congr (w1 w2 a b : Rat) (hw : w1 = w2)
    (h : w1 = 0 ∨ a = b) : w1 * a = w2 * b := by
  subst hw
  rcases h with h | h
  · rw [h, zero_mul, zero_mul]
  · rw [h]

/-- C4: if two configurations have equal weights everywhere and differ
only in shape parameters of axes whose weight is 0, every candidate gets
the same composite score and the ranked output is identical — a zero
weight makes its axis a no-op. -/
theorem zero_weight_axis_noop (F : AxisFns) (g g2 : GeneralSettings)
    (h : zeroWeightAgrees g g2) (candidates : List String) (n : Nat) :
    (∀ w, compositeScore F g w = compositeScore F g2 w) ∧
    rankedOutput F g candidates n = rankedOutput F g2 candidates n := by
  obtain ⟨h1, h2, h3, h4, h5, h6, h7, h8, h9, h10, h11, h12, h13, h14, h15⟩ := h
  have hsc : ∀ w, compositeScore F g w = compositeScore F g2 w := by
    intro w
    have e1 : g.popularity.weight * F.popScore g.popularity.pow w =
        g2.popularity.weight * F.popScore g2.popularity.pow w :=
      mul_term_congr _ _ _ _ h1
        (h2.imp id (fun he => congrArg (fun p => F.popScore p.pow w) he))
    have e2 : g.meaning.weight *
          F.meanScore g.meaning.pow g.meaning.single_pow
            g.meaning.single_weight w =
        g2.meaning.weight *
          F.meanScore g2.meaning.pow g2.meaning.single_pow
            g2.meaning.single_weight w :=
      mul_term_congr _ _ _ _ h3
        (h4.imp id (fun he =>
          congrArg (fun p => F.meanScore p.pow p.single_pow p.single_weight w)
            he))
    have e3 : g.stresses.weight *
          F.stressScore g.stresses.k_strict_stress
            g.stresses.k_not_strict_stress g.stresses.bad_rythm
            g.stresses.shift_syll_ending g.stresses.pow_syll_ending
            g.stresses.asympt g.stresses.asympt_shift
            g.stresses.indexation w =
        g2.stresses.weight *
          F.stressScore g2.stresses.k_strict_stress
            g2.stresses.k_not_strict_stress g2.stresses.bad_rythm
            g2.stresses.shift_syll_ending g2.stresses.pow_syll_ending
            g2.stresses.asympt g2.stresses.asympt_shift
            g2.stresses.indexation w :=
      mul_term_congr _ _ _ _ h5
        (h6.imp id (fun he =>
          congrArg (fun p => F.stressScore p.k_strict_stress
            p.k_not_strict_stress p.bad_rythm p.shift_syll_ending
            p.pow_syll_ending p.asympt p.asympt_shift p.indexation w) he))
    have e4 : g.consonant_structure.weight *
          F.consScore g.consonant_structure.pow
            g.consonant_structure.shift_syll_ending
            g.consonant_structure.pow_syll_ending
            g.consonant_structure.asympt
            g.consonant_structure.asympt_shift w =
        g2.consonant_structure.weight *
          F.consScore g2.consonant_structure.pow
            g2.consonant_structure.shift_syll_ending
            g2.consonant_structure.pow_syll_ending
            g2.consonant_structure.asympt
            g2.consonant_structure.asympt_shift w :=
      mul_term_congr _ _ _ _ h7
        (h8.imp id (fun he =>
          congrArg (fun p => F.consScore p.pow p.shift_syll_ending
            p.pow_syll_ending p.asympt p.asympt_shift w) he))
    have e5 : g.alliteration.weight *
          F.allitScore g.alliteration.shift_coord
            g.alliteration.pow_coord_delta g.alliteration.shift_syll_ending
            g.alliteration.pow_syll_ending g.alliteration.permutations
            g.alliteration.asympt g.alliteration.asympt_shift w =
        g2.alliteration.weight *
          F.allitScore g2.alliteration.shift_coord
            g2.alliteration.pow_coord_delta g2.alliteration.shift_syll_ending
            g2.alliteration.pow_syll_ending g2.alliteration.permutations
            g2.alliteration.asympt g2.alliteration.asympt_shift w :=
      mul_term_congr _ _ _ _ h9
        (h10.imp id (fun he =>
          congrArg (fun p => F.allitScore p.shift_coord p.pow_coord_delta
            p.shift_syll_ending p.pow_syll_ending p.permutations p.asympt
            p.asympt_shift w) he))
    have e6 : g.unsymmetrical.less_w *
          F.lessScore g.unsymmetrical.optimal_length
            g.unsymmetrical.less_pow w =
        g2.unsymmetrical.less_w *
          F.lessScore g2.unsymmetrical.optimal_length
            g2.unsymmetrical.less_pow w :=
      mul_term_congr _ _ _ _ h11
        (h13.imp And.left (fun he =>
          congrArg (fun u => F.lessScore u.optimal_length u.less_pow w) he))
    have e7 : g.unsymmetrical.more_w *
          F.moreScore g.unsymmetrical.optimal_length
            g.unsymmetrical.more_pow w =
        g2.unsymmetrical.more_w *
          F.moreScore g2.unsymmetrical.optimal_length
            g2.unsymmetrical.more_pow w :=
      mul_term_congr _ _ _ _ h12
        (h13.imp And.right (fun he =>
          congrArg (fun u => F.moreScore u.optimal_length u.more_pow w) he))
    simp only [compositeScore]
    rw [e1, e2, e3, e4, e5, e6, e7, h14, h15]
  refine ⟨hsc, ?_⟩
  have hfun : compositeScore F g = compositeScore F g2 := funext hsc
  simp only [rankedOutput, hfun]

/-- Witness for C4 at concrete configurations and candidates. -/
theorem zero_weight_axis_noop_witness :
    zeroWeightAgrees gW gW2 ∧
    rankedOutput axisFnsW gW ["ночь", "дочь"] 2 =
      rankedOutput axisFnsW gW2 ["ночь", "дочь"] 2 :=
  ⟨by simp only [zeroWeightAgrees]; decide,
   (zero_weight_axis_noop axisFnsW gW gW2
     (by simp only [zeroWeightAgrees]; decide) ["ночь", "дочь"] 2).2⟩

/-- C7: rendering in `Disabled` mode bypasses both caches: the result is
the plain rendering and the highlighter — in particular the contents and
sizes of both caches — is returned unchanged. -/
theorem get_or_render_disabled_bypasses
    (render renderPlain : String → RichText) (h : Highlighter)
    (t : String) :
    Highlighter.get_or_render render renderPlain h t HighlightMode.No =
      (renderPlain t, h) ∧
    (Highlighter.get_or_render render renderPlain h t
        HighlightMode.No).2.cache_highlight.entries =
      h.cache_highlight.entries ∧
    (Highlighter.get_or_render render renderPlain h t
        HighlightMode.No).2.cache_words.entries = h.cache_words.entries ∧
    (Highlighter.get_or_render render renderPlain h t
        HighlightMode.No).2.cache_highlight.entries.length =
      h.cache_highlight.entries.length ∧
    (Highlighter.get_or_render render renderPlain h t
        HighlightMode.No).2.cache_words.entries.length =
      h.cache_words.entries.length :=
  ⟨rfl, rfl, rfl, rfl, rfl⟩

/-- C8: inserting a fresh key into a cache at capacity evicts exactly
the least-recently-used entry (the last in recency order), keeping every
other entry in order; and `set_mode` only switches the active mode,
clearing neither cache. -/
theorem lru_eviction_and_set_mode (c : LruCache) (k : String)
    (v : RichText) (hk : c.lookup k = none)
    (hfull : c.entries.length = c.capacity) (hl : Highlighter)
    (m : HighlightMode) :
    (c.put k v).entries = (k, v) :: c.entries.dropLast ∧
    (c.put k v).keys = k :: c.keys.dropLast ∧
    (hl.set_mode m).cache_highlight = hl.cache_highlight ∧
    (hl.set_mode m).cache_words = hl.cache_words ∧
    (hl.set_mode m).mode = m := by
  have hfind : c.entries.find? (fun p => p.fst = k) = none := by
    simpa [LruCache.lookup] using hk
  have hany : c.entries.any (fun p => decide (p.fst = k)) = false := by
    rw [List.any_eq_false]
    intro p hp
    have := List.find?_eq_none.mp hfind p hp
    simpa using this
  have hcap : c.capacity ≤ c.entries.length := le_of_eq hfull.symm
  have hput : (c.put k v).entries = (k, v) :: c.entries.dropLast := by
    simp [LruCache.put, hany, hcap]
  refine ⟨hput, ?_, rfl, rfl, rfl⟩
  simp [LruCache.keys, hput, List.map_dropLast]

/-- Witness for C8 at a concrete cache, key and highlighter. -/
theorem lru_eviction_and_set_mode_witness :
    cacheW.lookup "в" = none ∧
    cacheW.entries.length = cacheW.capacity ∧
    (cacheW.put "в" ⟨"в"⟩).keys = "в" :: cacheW.keys.dropLast ∧
    (highlighterW.set_mode HighlightMode.No).cache_words =
      highlighterW.cache_words :=
  ⟨by decide, by decide,
   (lru_eviction_and_set_mode cacheW "в" ⟨"в"⟩ (by decide) (by decide)
     highlighterW HighlightMode.No).2.1,
   (lru_eviction_and_set_mode cacheW "в" ⟨"в"⟩ (by decide) (by decide)
     highlighterW HighlightMode.No).2.2.2.1⟩

end Quickpoeter
